import Mathlib

/-!
Shallow embedding of the video-generation pipeline of this repository
(src/app/services/videoService.ts and src/app/services/ttsService.ts).

External effects (TTS synthesis, ffmpeg invocations, Cloudinary uploads,
HTTP requests to the Sync Labs and HeyGen job APIs, HEAD liveness checks,
file deletion) are modelled as environment-supplied outcomes: a call that
either returns a value or throws is an `Except String α` (the `String` is
the thrown error's message).  Loops are embedded structurally on the
remaining attempt budget so that everything evaluates by `decide`/`rfl`.
-/

namespace AiNews

/-- JS truthiness of an optional string field: `undefined`, `null` and the
empty string are falsy; any non-empty string is truthy. -/
def optTruthy : Option String → Bool
  | none => false
  | some s => !(s == "")

/-- JS `x || d` for an optional string `x`: the default `d` is used when the
field is absent or the empty string (both falsy). -/
def jsOrStr (o : Option String) (d : String) : String :=
  match o with
  | none => d
  | some s => if s == "" then d else s

/-! ## Sync Labs lip-sync job (src/app/services/videoService.ts, generateLipSyncVideo) -/

/-- Fixed quality/format options posted in `requestData.options`
(videoService.ts lines 148-154). -/
structure SyncOptions where
  output_format : String
  sync_mode : String
  fps : Nat
  output_resolution : List Nat
  active_speaker : Bool
deriving DecidableEq, Repr

/-- The submission request body `requestData` (videoService.ts lines 136-155):
the model name, the two uploaded media URLs and the fixed options. -/
structure SyncRequest where
  model : String
  inputVideoUrl : String
  inputAudioUrl : String
  options : SyncOptions
deriving DecidableEq, Repr

/-- Builds `requestData` exactly as videoService.ts lines 136-155 does. -/
def mkSyncRequest (videoUrl audioUrl : String) : SyncRequest :=
  { model := "lipsync-1.9.0-beta"
    inputVideoUrl := videoUrl
    inputAudioUrl := audioUrl
    options :=
      { output_format := "mp4"
        sync_mode := "bounce"
        fps := 25
        output_resolution := [854, 480]
        active_speaker := true } }

/-- The submission response body `response.data`: the optional `id` field and
the raw serialized body (used in the no-job-id error message, line 180). -/
structure SyncSubmitResp where
  id : Option String
  raw : String
deriving DecidableEq, Repr

/-- One status-poll response body `statusResponse.data` of the Sync Labs job
API: `status`, `outputUrl` and `error` are all optional fields. -/
structure SyncPollResp where
  status : Option String
  outputUrl : Option String
  errorMsg : Option String
deriving DecidableEq, Repr

/-- The distinct throw sites of `generateLipSyncVideo` (videoService.ts
lines 125-228); each constructor carries the dynamic part of the thrown
`Error`'s message. -/
inductive LipSyncErr where
  | noApiKey : LipSyncErr
  | uploadVideoFailed : String → LipSyncErr
  | uploadAudioFailed : String → LipSyncErr
  | submitFailed : String → LipSyncErr
  | noJobId : String → LipSyncErr
  | jobFailed : Option String → LipSyncErr
  | pollRequestFailed : String → LipSyncErr
  | timedOut : LipSyncErr
deriving DecidableEq, Repr

/-- The message of the `Error` thrown at each site, before the outer catch
wraps it (videoService.ts lines 128, 180, 209, 216; upload/submit/poll
request failures propagate the throwing call's own message). -/
def lipSyncErrMessage : LipSyncErr → String
  | .noApiKey => "SYNC_API_KEY environment variable is not set"
  | .uploadVideoFailed m => m
  | .uploadAudioFailed m => m
  | .submitFailed m => m
  | .noJobId raw => "No job ID in SyncLabs response: " ++ raw
  | .jobFailed e => "Job failed: " ++ jsOrStr e "Unknown error"
  | .pollRequestFailed m => m
  | .timedOut => "Video processing timed out after 5 minutes"

/-- The catch block at videoService.ts lines 217-227 rewraps every error
thrown inside `generateLipSyncVideo` into this message. -/
def lipSyncWrappedMessage (e : LipSyncErr) : String :=
  "Failed to generate lip sync video: " ++ lipSyncErrMessage e

/-- Poll budget of the Sync Labs loop (videoService.ts line 188). -/
def syncMaxAttempts : Nat := 30

/-- Fixed delay in milliseconds between Sync Labs polls (line 189). -/
def syncPollIntervalMs : Nat := 10000

/-- The polling loop of `generateLipSyncVideo` (videoService.ts lines
186-216), embedded structurally on the remaining budget `rem` (the source's
`while (attempts < maxAttempts)` with `rem = maxAttempts - attempts`).
`polls attempt` is the outcome of the attempt-th GET of the job status
(`.error m` models the request itself throwing).  Returns the result
together with the list of `setTimeout` delays performed (line 212). -/
def syncPollAux (polls : Nat → Except String SyncPollResp) :
    Nat → Nat → Except LipSyncErr String × List Nat
  | 0, _ => (.error .timedOut, [])
  | rem + 1, attempt =>
    match polls attempt with
    | .error m => (.error (.pollRequestFailed m), [])
    | .ok r =>
      if r.status == some "COMPLETED" && optTruthy r.outputUrl then
        (.ok (r.outputUrl.getD ""), [])
      else if r.status == some "FAILED" then
        (.error (.jobFailed r.errorMsg), [])
      else
        let next := syncPollAux polls rem (attempt + 1)
        (next.1, syncPollIntervalMs :: next.2)

/-- Environment of one `generateLipSyncVideo` call: the `SYNC_API_KEY`
variable, the outcomes of the two Cloudinary uploads, of the submission
POST, and of each status poll. -/
structure SyncEnv where
  apiKey : Option String
  uploadVideo : Except String String
  uploadAudio : Except String String
  submit : Except String SyncSubmitResp
  polls : Nat → Except String SyncPollResp

/-- Result of one `generateLipSyncVideo` call: the returned URL or the
thrown error, the submission request that was posted (if control reached
the POST), and the poll delays performed. -/
structure SyncRunOut where
  result : Except LipSyncErr String
  posted : Option SyncRequest
  delays : List Nat

/-- `generateLipSyncVideo` (videoService.ts lines 125-228): check the API
key, upload both files, post `requestData` once, fail immediately when the
response has no truthy `id`, otherwise poll up to the budget. -/
def generateLipSyncVideo (env : SyncEnv) : SyncRunOut :=
  if !optTruthy env.apiKey then
    { result := .error .noApiKey, posted := none, delays := [] }
  else
    match env.uploadVideo with
    | .error m => { result := .error (.uploadVideoFailed m), posted := none, delays := [] }
    | .ok videoUrl =>
      match env.uploadAudio with
      | .error m => { result := .error (.uploadAudioFailed m), posted := none, delays := [] }
      | .ok audioUrl =>
        let req := mkSyncRequest videoUrl audioUrl
        match env.submit with
        | .error m => { result := .error (.submitFailed m), posted := some req, delays := [] }
        | .ok resp =>
          if !optTruthy resp.id then
            { result := .error (.noJobId resp.raw), posted := some req, delays := [] }
          else
            let out := syncPollAux env.polls syncMaxAttempts 0
            { result := out.1, posted := some req, delays := out.2 }

/-! ## Top-level orchestrator (src/app/services/videoService.ts, generateVideoFromText) -/

/-- The three distinctly-named temporary files a run can create: the
synthesized audio (`speech-*.mp3`), the baseline temp video (`temp-*.mp4`)
and the fallback's enhanced video (`enhanced-*.mp4`).  A field is `true`
while the file exists on disk. -/
structure TempFS where
  audio : Bool
  temp : Bool
  enhanced : Bool
deriving DecidableEq, Repr

/-- The scratch directory before a run: none of the run's files exist. -/
def TempFS.empty : TempFS := { audio := false, temp := false, enhanced := false }

/-- The success value `{ videoUrl, usedFallback }` returned by
`generateVideoFromText` (videoService.ts line 91). -/
structure GenResult where
  videoUrl : String
  usedFallback : Bool
deriving DecidableEq, Repr

/-- Environment of one `generateVideoFromText` run: the outcome of every
external step, plus flags saying whether each `fs.unlink` call itself fails
(an `unlink` on a file that exists can still throw; the code swallows such
errors).  `lipSync` is the outcome of the whole lip-sync stage as the
orchestrator observes it: a returned URL or a thrown message.  The audio
duration is omitted: `getAudioDuration` is total and its value only feeds
the ffmpeg command line, never control flow. -/
structure RunEnv where
  speech : Except String Unit
  baseline : Except String Unit
  lipSync : Except String String
  fallbackFfmpeg : Except String Unit
  fallbackUpload : Except String String
  unlinkAudioFails : Bool
  unlinkTempFails : Bool
  unlinkEnhancedFails : Bool

/-- `generateFallbackVideo` (videoService.ts lines 230-257): run the
enhancing ffmpeg command (creating `enhanced-*.mp4` on success), upload it,
then try to delete it, swallowing a deletion error (lines 245-250). Errors
are wrapped as `Failed to generate fallback video: <msg>` (line 255). -/
def generateFallbackVideo (env : RunEnv) (fs : TempFS) : Except String String × TempFS :=
  match env.fallbackFfmpeg with
  | .error m => (.error ("Failed to generate fallback video: " ++ m), fs)
  | .ok _ =>
    let fs1 : TempFS := { fs with enhanced := true }
    match env.fallbackUpload with
    | .error m => (.error ("Failed to generate fallback video: " ++ m), fs1)
    | .ok url =>
      (.ok url, if env.unlinkEnhancedFails then fs1 else { fs1 with enhanced := false })

/-- The `try` body of `generateVideoFromText` (videoService.ts lines 43-91)
together with which of `audioPath` / `tempVideoPath` are non-null at exit
(both are set iff speech synthesis succeeded: the temp path is assigned at
line 57, before the baseline ffmpeg runs).  The outer catch (line 94)
wraps every error as `Failed to generate video from text: <msg>`; the
baseline ffmpeg's own catch (line 121) first wraps its error as
`Failed to generate video from image`. -/
def generateVideoCore (env : RunEnv) : Except String GenResult × TempFS × Bool × Bool :=
  match env.speech with
  | .error _ => (.error "Failed to generate video from text: Failed to generate speech from text",
      TempFS.empty, false, false)
  | .ok _ =>
    let fs1 : TempFS := { TempFS.empty with audio := true }
    match env.baseline with
    | .error _ => (.error "Failed to generate video from text: Failed to generate video from image",
        fs1, true, true)
    | .ok _ =>
      let fs2 : TempFS := { fs1 with temp := true }
      match env.lipSync with
      | .ok url =>
        (if url == "" then
          .error "Failed to generate video from text: Failed to generate video: No URL returned"
        else .ok { videoUrl := url, usedFallback := false }, fs2, true, true)
      | .error _ =>
        let fb := generateFallbackVideo env fs2
        match fb.1 with
        | .error m => (.error ("Failed to generate video from text: " ++ m), fb.2, true, true)
        | .ok url =>
          (if url == "" then
            .error "Failed to generate video from text: Failed to generate video: No URL returned"
          else .ok { videoUrl := url, usedFallback := true }, fb.2, true, true)

/-- The `finally` block (videoService.ts lines 95-109): for each of the
non-null paths among `audioPath`, `tempVideoPath`, attempt `fs.unlink` and
swallow its error (the file stays if the deletion itself fails; unlinking
an already-absent path throws and is likewise swallowed). -/
def finallyCleanup (env : RunEnv) (audioSet tempSet : Bool) (fs : TempFS) : TempFS :=
  let fs1 := if audioSet && !env.unlinkAudioFails then { fs with audio := false } else fs
  if tempSet && !env.unlinkTempFails then { fs1 with temp := false } else fs1

/-- `generateVideoFromText` (videoService.ts lines 33-110): the try body
followed unconditionally by the cleanup of the finally block; returns the
result (or thrown error) and the final scratch-directory state. -/
def generateVideoFromText (env : RunEnv) : Except String GenResult × TempFS :=
  let core := generateVideoCore env
  (core.1, finallyCleanup env core.2.2.1 core.2.2.2 core.2.1)

/-! ## JS string primitives used by ttsService.ts -/

/-- The character class of the JS regex `\s` (also the set trimmed by
`String.prototype.trim`): ASCII whitespace plus the Unicode space
separators, line/paragraph separators and the BOM. -/
def jsIsWhitespace (c : Char) : Bool :=
  c == ' ' || c == '\t' || c == '\n' || c == '\r' || c == '\x0b' || c == '\x0c' ||
  c.val == 0xA0 || c.val == 0x1680 || (0x2000 ≤ c.val && c.val ≤ 0x200A) ||
  c.val == 0x2028 || c.val == 0x2029 || c.val == 0x202F || c.val == 0x205F ||
  c.val == 0x3000 || c.val == 0xFEFF

/-- JS `String.prototype.trim`: strip whitespace from both ends. -/
def jsTrim (s : String) : String :=
  String.mk (((s.data.dropWhile jsIsWhitespace).reverse.dropWhile jsIsWhitespace).reverse)

/-- Numeric value of an ASCII digit run (most significant first). -/
def digitsToNat (ds : List Char) : Nat :=
  ds.foldl (fun n c => 10 * n + (c.toNat - '0'.toNat)) 0

/-- Optional sign at the head of a JS decimal literal; `true` means
negative. -/
def jsParseFloatSign : List Char → Bool × List Char
  | '+' :: r => (false, r)
  | '-' :: r => (true, r)
  | cs => (false, cs)

/-- Exponent part of a JS decimal literal: `e`/`E`, optional sign, digits;
an `e` not followed by digits is ignored (`parseFloat("1e") = 1`). -/
def jsParseFloatExp : List Char → Int
  | [] => 0
  | c :: r =>
    if c == 'e' || c == 'E' then
      let sr : Int × List Char :=
        match r with
        | '+' :: r2 => (1, r2)
        | '-' :: r2 => (-1, r2)
        | _ => (1, r)
      let eds := (sr.2.span Char.isDigit).1
      if eds.isEmpty then 0 else sr.1 * (digitsToNat eds : Int)
    else 0

/-- The rational value of a parsed literal: sign, integer digits, fraction
digits and decimal exponent, i.e. `± mant / 10^|fracs| * 10^e`, built with
`mkRat` over integer arithmetic. -/
def jsParseFloatVal (neg : Bool) (ints fracs : List Char) (e : Int) : ℚ :=
  let mant : Nat := digitsToNat ints * 10 ^ fracs.length + digitsToNat fracs
  let num : Int := if neg then -(mant : Int) else (mant : Int)
  if 0 ≤ e then mkRat (num * ((10 ^ e.toNat : Nat) : Int)) (10 ^ fracs.length)
  else mkRat num (10 ^ fracs.length * 10 ^ (-e).toNat)

/-- JS `parseFloat`: skip leading whitespace, read the longest decimal
literal prefix (`[+-]? (digits [. digits*] | . digits) ([eE][+-]?digits)?`),
ignore everything after it; `none` models the `NaN` result when no literal
is present.  Values are exact rationals; the `Infinity` literal (never
produced by a duration probe) is outside this model. -/
def jsParseFloat (s : String) : Option ℚ :=
  let cs0 := s.data.dropWhile jsIsWhitespace
  let neg := (jsParseFloatSign cs0).1
  let cs1 := (jsParseFloatSign cs0).2
  let ints := (cs1.span Char.isDigit).1
  let cs2 := (cs1.span Char.isDigit).2
  match ints, cs2 with
  | [], '.' :: r =>
    let fracs := (r.span Char.isDigit).1
    let cs3 := (r.span Char.isDigit).2
    if fracs.isEmpty then none
    else some (jsParseFloatVal neg [] fracs (jsParseFloatExp cs3))
  | [], _ => none
  | _, '.' :: r =>
    let fracs := (r.span Char.isDigit).1
    let cs3 := (r.span Char.isDigit).2
    some (jsParseFloatVal neg ints fracs (jsParseFloatExp cs3))
  | _, _ => some (jsParseFloatVal neg ints [] (jsParseFloatExp cs2))

/-! ## TTSService.getAudioDuration (src/app/services/ttsService.ts lines 89-104) -/

/-- Environment of one `getAudioDuration` call: the ffprobe invocation
either throws or yields its stdout. -/
structure ProbeEnv where
  probe : Except String String

/-- `getAudioDuration`: probe the file; on a thrown probe or a stdout that
parses to `NaN`, return the default 30 seconds, else the parsed value
(ttsService.ts lines 97-102). -/
def getAudioDuration (env : ProbeEnv) : ℚ :=
  match env.probe with
  | .error _ => 30
  | .ok out =>
    match jsParseFloat (jsTrim out) with
    | none => 30
    | some q => q

/-! ## HeyGen text sanitization (src/app/services/ttsService.ts lines 169-216) -/

/-- The regex class `[''""]` at line 171 of this source holds the ASCII
apostrophe and double quote; both are replaced by an apostrophe. -/
def replaceQuoteChars (c : Char) : Char :=
  if c == '\'' || c == '"' then '\'' else c

/-- JS `.replace(/\s+/g, ' ')`: every maximal whitespace run becomes a
single space.  The boolean argument records whether the previous character
was whitespace. -/
def collapseWsAux : Bool → List Char → List Char
  | _, [] => []
  | prevWs, c :: rest =>
    if jsIsWhitespace c then
      if prevWs then collapseWsAux true rest
      else ' ' :: collapseWsAux true rest
    else c :: collapseWsAux false rest

/-- JS `.replace(/[^\x20-\x7E\n]/g, '')`: keep printable ASCII and `\n`. -/
def isPrintableOrNl (c : Char) : Bool :=
  (0x20 ≤ c.val && c.val ≤ 0x7E) || c == '\n'

/-- Lines 170-174: quote normalization, whitespace collapse, non-printable
removal, trim — in the source's order. -/
def cleanHeyGenText (t : String) : String :=
  jsTrim (String.mk ((collapseWsAux false (t.data.map replaceQuoteChars)).filter isPrintableOrNl))

/-- JS `s.split(/\s+/)` (line 177).  The boolean says whether we are inside
a whitespace gap; `acc` holds the current word reversed.  Matches the JS
boundary behavior: `""` gives `[""]`, leading whitespace yields an empty
first element, trailing whitespace an empty last element. -/
def jsSplitWsAux : Bool → List Char → List Char → List (List Char)
  | inGap, acc, [] => if inGap then [[]] else [acc.reverse]
  | inGap, acc, c :: rest =>
    if jsIsWhitespace c then
      if inGap then jsSplitWsAux true [] rest
      else acc.reverse :: jsSplitWsAux true [] rest
    else jsSplitWsAux false (c :: acc) rest

/-- The word list `sanitizedText.split(/\s+/)`. -/
def jsSplitWs (s : String) : List (List Char) :=
  jsSplitWsAux false [] s.data

/-- `/[aeiou]/i.test(word)` (line 179). -/
def hasVowel (w : List Char) : Bool :=
  w.any (fun c => c == 'a' || c == 'e' || c == 'i' || c == 'o' || c == 'u' ||
    c == 'A' || c == 'E' || c == 'I' || c == 'O' || c == 'U')

/-- A word counted as garbled: longer than 7 characters with no vowel
(lines 178-180). -/
def isGarbledWord (w : List Char) : Bool :=
  decide (w.length > 7) && !hasVowel w

/-- `garbledRatio > 0.1` (lines 181-183), read as the exact rational
comparison `garbledWordCount / words.length > 1/10`, i.e.
`10 * garbledWordCount > words.length` (the word list is never empty, so no
division by zero arises). -/
def heygenGarbled (s : String) : Bool :=
  let words := jsSplitWs s
  decide (10 * (words.filter isGarbledWord).length > words.length)

/-- The fixed safe generic fallback sentence (line 185). -/
def heygenFallbackText : String :=
  "This article discusses the latest news and developments. Please read the full article for more details."

/-- The replacement condition at line 183: garbled, or sanitized text
shorter than 20 characters. -/
def heygenNeedsFallback (s : String) : Bool :=
  heygenGarbled s || decide (s.length < 20)

/-- Lines 170-189: clean the text, substitute the fallback sentence when
the condition fires, then `.slice(0, 1000)` (every character is printable
ASCII at this point, so UTF-16 units coincide with characters). -/
def heygenSanitizedTrunc (t : String) : String :=
  let s := cleanHeyGenText t
  let s1 := if heygenNeedsFallback s then heygenFallbackText else s
  String.mk (s1.data.take 1000)

/-- One of `.`, `!`, `?`. -/
def isSentencePunct (c : Char) : Bool :=
  c == '.' || c == '!' || c == '?'

/-- An ASCII capital letter. -/
def isAsciiUpper (c : Char) : Bool :=
  'A' ≤ c && c ≤ 'Z'

/-- After a punctuation mark, `\s+[A-Z]`: at least one whitespace character
and then a capital right after the whitespace run. -/
def wsThenUpper (l : List Char) : Bool :=
  match l with
  | [] => false
  | c :: rest =>
    jsIsWhitespace c &&
      (match rest.dropWhile jsIsWhitespace with
       | d :: _ => isAsciiUpper d
       | [] => false)

/-- `/[.!?]\s+[A-Z]/.test(s)` (line 192). -/
def hasSentencePattern : List Char → Bool
  | [] => false
  | c :: rest => (isSentencePunct c && wsThenUpper rest) || hasSentencePattern rest

/-- `word.charAt(0).toUpperCase() + word.slice(1)` (line 199); the text is
ASCII here so `Char.toUpper` matches JS `toUpperCase`. -/
def capitalizeFirst (w : List Char) : List Char :=
  match w with
  | [] => []
  | c :: rest => c.toUpper :: rest

/-- `word.endsWith(',')` (line 202). -/
def endsWithComma (w : List Char) : Bool :=
  w.getLast? == some ','

/-- The sentence-building loop of lines 194-211: `fmt` is `formattedText`,
`cur` is `currentSentence`, `n` is `wordCount`; a sentence is flushed with
`'. '` once it holds 10 words or its last word ends in a comma, and a
nonempty remainder is flushed with `'.'`. -/
def formatWordsAux : List (List Char) → List Char → List Char → Nat → List Char
  | [], fmt, cur, _ => if cur.isEmpty then fmt else fmt ++ cur ++ ['.']
  | w :: ws, fmt, cur, n =>
    let cur1 := cur ++ (if n == 0 then capitalizeFirst w else ' ' :: w)
    if n + 1 ≥ 10 || endsWithComma w then
      formatWordsAux ws (fmt ++ cur1 ++ ['.', ' ']) [] 0
    else
      formatWordsAux ws fmt cur1 (n + 1)

/-- Lines 192-214: texts longer than 100 characters with no sentence
pattern are reflowed into ten-word sentences and trimmed; all others pass
through unchanged. -/
def formatHeyGenText (s : String) : String :=
  if !hasSentencePattern s.data && decide (s.length > 100) then
    jsTrim (String.mk (formatWordsAux (jsSplitWs s) [] [] 0))
  else s

/-- The `sanitizedText` value submitted in the HeyGen generate request
(line 235): sanitize/replace/truncate (lines 170-189) then the
sentence-formatting pass (lines 192-214). -/
def heygenSubmittedText (t : String) : String :=
  formatHeyGenText (heygenSanitizedTrunc t)

/-! ## HeyGen status polling (src/app/services/ttsService.ts, checkHeyGenVideoStatus) -/

/-- One HeyGen v1 `video_status.get` response body: `code` plus the
`data.status`, `data.video_url` and `data.error` fields (the error's
`detail`/`message` feed only a message that is thrown and then swallowed by
the surrounding catch). -/
structure HGResp where
  code : Option Nat
  status : Option String
  videoUrl : Option String
  errorDetail : Option String
  errorMessage : Option String
deriving DecidableEq, Repr

/-- Environment of one `checkHeyGenVideoStatus` call: the API key, the
outcome of each status GET, the outcome of the HEAD liveness check a given
attempt would perform, and the `Math.random()` draw of a given attempt
(the code's jitter is `Math.floor(Math.random() * 5000)`, modelled as
`rand attempt % 5000`). -/
structure HGEnv where
  apiKey : Option String
  polls : Nat → Except String HGResp
  heads : Nat → Except String Nat
  rand : Nat → Nat

/-- The delays `checkHeyGenVideoStatus` performs, in milliseconds: the
fixed wait before the first poll (line 293), the fixed inter-poll wait of
the non-error path (line 346), and the backoff wait of the catch path
(lines 358-363). -/
inductive HGDelay where
  | initialWait : Nat → HGDelay
  | pollWait : Nat → HGDelay
  | backoffWait : Nat → HGDelay
deriving DecidableEq, Repr

/-- The only two errors `checkHeyGenVideoStatus` can propagate: the missing
API key (line 282) and the attempt-budget timeout (line 368) — the
failed-status throw at line 338 is caught by the loop's own catch. -/
inductive HGErr where
  | missingApiKey : HGErr
  | timedOut : HGErr
deriving DecidableEq, Repr

/-- Message of each propagated error (lines 282 and 368). -/
def hgErrMessage : HGErr → String
  | .missingApiKey => "HEYGEN_API_KEY not set"
  | .timedOut => "HeyGen video processing timed out after 30 attempts. The video might still be processing - check your HeyGen account dashboard."

/-- Poll budget (line 285). -/
def hgMaxAttempts : Nat := 30

/-- Fixed inter-poll delay in ms (line 286). -/
def hgPollIntervalMs : Nat := 30000

/-- Fixed delay before the first poll in ms (line 293). -/
def hgInitialDelayMs : Nat := 30000

/-- Cap on the backoff base delay in ms (line 358). -/
def hgBackoffCapMs : Nat := 60000

/-- Exclusive bound on the random jitter in ms (line 359). -/
def hgJitterBoundMs : Nat := 5000

/-- The catch path's retry delay (lines 358-360):
`min(pollInterval * (attempts + 1), 60000)` plus the jitter draw. -/
def hgBackoffMs (env : HGEnv) (attempts : Nat) : Nat :=
  min (hgPollIntervalMs * (attempts + 1)) hgBackoffCapMs + env.rand attempts % hgJitterBoundMs

/-- How one iteration of the status-check loop ends: returning the URL,
sleeping the fixed poll interval, or sleeping the catch path's backoff. -/
inductive HGStepKind where
  | success : String → HGStepKind
  | waitFixed : HGStepKind
  | waitBackoff : HGStepKind
deriving DecidableEq, Repr

/-- The body of the `while (attempts < maxAttempts)` loop (lines 296-365):
a GET that throws takes the catch path (backoff wait); a response with
`code = 100`, `completed` status and a truthy URL runs the HEAD check and
returns the URL only on HEAD status 200, any other HEAD outcome falling
through to the fixed poll wait; a `failed` status throws, is caught by the
loop's own catch (line 348) and so also takes the backoff path; everything
else (still processing, unexpected code) takes the fixed poll wait. -/
def hgStep (env : HGEnv) (attempt : Nat) : HGStepKind :=
  match env.polls attempt with
  | .error _ => .waitBackoff
  | .ok r =>
    if r.code == some 100 then
      if r.status == some "completed" && optTruthy r.videoUrl then
        match env.heads attempt with
        | .ok code => if code == 200 then .success (r.videoUrl.getD "") else .waitFixed
        | .error _ => .waitFixed
      else if r.status == some "failed" then .waitBackoff
      else .waitFixed
    else .waitFixed

/-- The status-check loop, embedded structurally on the remaining budget
(`rem = maxAttempts - attempts`); exhaustion yields the timeout error.
Returns the result together with the delays performed. -/
def hgLoopAux (env : HGEnv) : Nat → Nat → Except HGErr String × List HGDelay
  | 0, _ => (.error .timedOut, [])
  | rem + 1, attempt =>
    match hgStep env attempt with
    | .success u => (.ok u, [])
    | .waitFixed =>
      let next := hgLoopAux env rem (attempt + 1)
      (next.1, .pollWait hgPollIntervalMs :: next.2)
    | .waitBackoff =>
      let next := hgLoopAux env rem (attempt + 1)
      (next.1, .backoffWait (hgBackoffMs env attempt) :: next.2)

/-- `checkHeyGenVideoStatus` (ttsService.ts lines 279-380): fail fast on a
missing key, otherwise wait the fixed initial delay and run the bounded
polling loop. -/
def checkHeyGenVideoStatus (env : HGEnv) : Except HGErr String × List HGDelay :=
  if !optTruthy env.apiKey then (.error .missingApiKey, [])
  else
    let next := hgLoopAux env hgMaxAttempts 0
    (next.1, .initialWait hgInitialDelayMs :: next.2)

/-! ## Boolean views and concrete environments used in witnesses -/

/-- Whether a modelled call returned normally (`true`) or threw. -/
def exceptOk {α β : Type} : Except α β → Bool
  | .ok _ => true
  | .error _ => false

/-- A job stream that always reports `PROCESSING`. -/
def pollsStuck : Nat → Except String SyncPollResp :=
  fun _ => Except.ok { status := some "PROCESSING", outputUrl := none, errorMsg := none }

/-- A job stream whose responses report `COMPLETED` with an empty URL. -/
def pollsNoUrl : Nat → Except String SyncPollResp :=
  fun _ => Except.ok { status := some "COMPLETED", outputUrl := some "", errorMsg := none }

/-- A run where every stage succeeds and lip-sync returns a URL. -/
def envAllOk : RunEnv where
  speech := Except.ok ()
  baseline := Except.ok ()
  lipSync := Except.ok "https://cdn/main.mp4"
  fallbackFfmpeg := Except.ok ()
  fallbackUpload := Except.ok "https://cdn/fb.mp4"
  unlinkAudioFails := false
  unlinkTempFails := false
  unlinkEnhancedFails := false

/-- A run where lip-sync throws, the fallback's ffmpeg succeeds (so the
enhanced temp file is created) and the fallback's upload then throws. -/
def envFallbackUploadFails : RunEnv where
  speech := Except.ok ()
  baseline := Except.ok ()
  lipSync := Except.error "sync provider down"
  fallbackFfmpeg := Except.ok ()
  fallbackUpload := Except.error "upload down"
  unlinkAudioFails := false
  unlinkTempFails := false
  unlinkEnhancedFails := false

/-- A lip-sync environment whose submission response carries no job id. -/
def envNoJobId : SyncEnv where
  apiKey := some "key"
  uploadVideo := Except.ok "https://store/v.mp4"
  uploadAudio := Except.ok "https://store/a.mp3"
  submit := Except.ok { id := none, raw := "null" }
  polls := pollsStuck

/-- A HeyGen environment whose polls always report `processing`. -/
def hgEnvProcessing : HGEnv where
  apiKey := some "key"
  polls := fun _ => Except.ok
    { code := some 100, status := some "processing", videoUrl := none,
      errorDetail := none, errorMessage := none }
  heads := fun _ => Except.ok 200
  rand := fun _ => 0

/-- A HeyGen environment reporting `completed` with a URL whose liveness
check throws on the first attempt and passes afterwards. -/
def hgEnvDeadUrl : HGEnv where
  apiKey := some "key"
  polls := fun _ => Except.ok
    { code := some 100, status := some "completed", videoUrl := some "https://hg/u.mp4",
      errorDetail := none, errorMessage := none }
  heads := fun i => if i == 0 then Except.error "HEAD 404" else Except.ok 200
  rand := fun _ => 0

/-! ## Helper lemmas -/

/-- If a Sync Labs poll loop run returns a URL, some in-budget poll
answered `COMPLETED` together with that non-empty URL. -/
theorem syncPollAux_ok_elim (polls : Nat → Except String SyncPollResp) :
    ∀ (rem attempt : Nat) (u : String) (tr : List Nat),
      syncPollAux polls rem attempt = (Except.ok u, tr) →
      ∃ i r, attempt ≤ i ∧ i < attempt + rem ∧ polls i = Except.ok r ∧
        r.status = some "COMPLETED" ∧ r.outputUrl = some u ∧ u ≠ "" := by
  intro rem
  induction rem with
  | zero =>
    intro attempt u tr h
    simp [syncPollAux] at h
  | succ n ih =>
    intro attempt u tr h
    cases hp : polls attempt with
    | error m => simp only [syncPollAux, hp] at h; simp at h
    | ok r =>
      simp only [syncPollAux, hp] at h
      by_cases hc : (r.status == some "COMPLETED" && optTruthy r.outputUrl) = true
      · rw [if_pos hc] at h
        rw [Bool.and_eq_true] at hc
        obtain ⟨h1, h2⟩ := hc
        have hst : r.status = some "COMPLETED" := by simpa using h1
        obtain ⟨hu, htr⟩ := Prod.mk.injEq .. ▸ h
        cases hurl : r.outputUrl with
        | none => rw [hurl] at h2; simp [optTruthy] at h2
        | some s =>
          rw [hurl] at h2
          have hs : s ≠ "" := by simpa [optTruthy] using h2
          refine ⟨attempt, r, le_refl _, by omega, hp, hst, ?_, ?_⟩
          · rw [hurl]
            have : u = s := by
              have := hu
              rw [hurl] at this
              simpa using this.symm
            rw [this]
          · have : u = s := by
              have := hu
              rw [hurl] at this
              simpa using this.symm
            rw [this]; exact hs
      · rw [if_neg hc] at h
        by_cases hf : (r.status == some "FAILED") = true
        · rw [if_pos hf] at h; simp at h
        · rw [if_neg hf] at h
          simp only [Prod.mk.injEq] at h
          obtain ⟨i, r', hle, hlt, hrest⟩ :=
            ih (attempt + 1) u (syncPollAux polls n (attempt + 1)).2 (by
              exact Prod.ext h.1 rfl)
          exact ⟨i, r', by omega, by omega, hrest⟩

/-- Every delay the Sync Labs poll loop performs is the fixed interval. -/
theorem syncPollAux_delays (polls : Nat → Except String SyncPollResp) :
    ∀ (rem attempt : Nat) (d : Nat), d ∈ (syncPollAux polls rem attempt).2 →
      d = syncPollIntervalMs := by
  intro rem
  induction rem with
  | zero => intro attempt d hd; simp [syncPollAux] at hd
  | succ n ih =>
    intro attempt d hd
    cases hp : polls attempt with
    | error m => simp only [syncPollAux, hp] at hd; simp at hd
    | ok r =>
      simp only [syncPollAux, hp] at hd
      by_cases hc : (r.status == some "COMPLETED" && optTruthy r.outputUrl) = true
      · rw [if_pos hc] at hd; simp at hd
      · rw [if_neg hc] at hd
        by_cases hf : (r.status == some "FAILED") = true
        · rw [if_pos hf] at hd; simp at hd
        · rw [if_neg hf] at hd
          simp only [List.mem_cons] at hd
          rcases hd with hd | hd
          · exact hd
          · exact ih (attempt + 1) d hd

/-- A poll stream with no in-budget terminal response drives the Sync Labs
loop to the timeout error after one fixed-interval sleep per attempt. -/
theorem syncPollAux_exhaust (polls : Nat → Except String SyncPollResp) :
    ∀ (rem attempt : Nat),
      (∀ i, attempt ≤ i → i < attempt + rem →
        ∃ r, polls i = Except.ok r ∧
          (r.status == some "COMPLETED" && optTruthy r.outputUrl) = false ∧
          (r.status == some "FAILED") = false) →
      syncPollAux polls rem attempt =
        (Except.error LipSyncErr.timedOut, List.replicate rem syncPollIntervalMs) := by
  intro rem
  induction rem with
  | zero => intro attempt _; simp [syncPollAux]
  | succ n ih =>
    intro attempt hall
    obtain ⟨r, hp, hc, hf⟩ := hall attempt (le_refl _) (by omega)
    have hrec := ih (attempt + 1) (fun i h1 h2 => hall i (by omega) (by omega))
    simp only [syncPollAux, hp, hc, hf]
    rw [hrec]
    simp [List.replicate_succ]

/-- The wrapped timeout message and any wrapped failed-status message
differ (at index 35 one reads `V`, the other `J`), so a caller holding the
thrown error can tell the two apart. -/
theorem lipSync_timeout_msg_ne_jobFailed (e : Option String) :
    lipSyncWrappedMessage LipSyncErr.timedOut ≠ lipSyncWrappedMessage (LipSyncErr.jobFailed e) := by
  intro h
  have hV : (lipSyncWrappedMessage LipSyncErr.timedOut).data.get? 35 = some 'V' := rfl
  have hJ : (lipSyncWrappedMessage (LipSyncErr.jobFailed e)).data.get? 35 = some 'J' := rfl
  rw [h] at hV
  exact absurd (Option.some.inj (hV.symm.trans hJ)) (by decide)

/-- C2: in the Sync Labs polling loop, a poll whose status is `COMPLETED`
but whose result URL is absent or empty is treated as still-polling (the
loop performs the fixed sleep and moves to the next attempt), and the loop
returns success only when a single in-budget response carries the
`COMPLETED` status together with a non-empty result URL. -/
theorem syncPoll_completed_without_url_still_polls :
    (∀ (polls : Nat → Except String SyncPollResp) (rem attempt : Nat) (r : SyncPollResp),
        polls attempt = Except.ok r → r.status = some "COMPLETED" →
        optTruthy r.outputUrl = false →
        syncPollAux polls (rem + 1) attempt =
          ((syncPollAux polls rem (attempt + 1)).1,
            syncPollIntervalMs :: (syncPollAux polls rem (attempt + 1)).2)) ∧
    (∀ (polls : Nat → Except String SyncPollResp) (rem attempt : Nat) (u : String) (tr : List Nat),
        syncPollAux polls rem attempt = (Except.ok u, tr) →
        ∃ i r, attempt ≤ i ∧ i < attempt + rem ∧ polls i = Except.ok r ∧
          r.status = some "COMPLETED" ∧ r.outputUrl = some u ∧ u ≠ "") := by
  constructor
  · intro polls rem attempt r hp hs hu
    simp only [syncPollAux, hp, hs, hu]
    simp
  · exact fun polls rem attempt u tr h => syncPollAux_ok_elim polls rem attempt u tr h

/-- Witness for C2 at a concrete stream: the first response is `COMPLETED`
with an empty URL, and the loop continues into attempt 1 after one fixed
sleep. -/
theorem syncPoll_completed_without_url_still_polls_witness :
    syncPollAux pollsNoUrl 30 0 =
      ((syncPollAux pollsNoUrl 29 1).1,
        syncPollIntervalMs :: (syncPollAux pollsNoUrl 29 1).2) :=
  syncPoll_completed_without_url_still_polls.1 pollsNoUrl 29 0
    { status := some "COMPLETED", outputUrl := some "", errorMsg := none } rfl rfl rfl

/-- C3: the Sync Labs loop has a budget of 30 attempts at a fixed
10000 ms interval; a stream with no in-budget terminal response drives it
to the timeout error after one fixed sleep per attempt; and the wrapped
timeout message differs from every wrapped failed-status message, so the
caller can distinguish the two terminal errors. -/
theorem syncPoll_interval_budget_timeout_distinct :
    syncMaxAttempts = 30 ∧ syncPollIntervalMs = 10000 ∧
    (∀ (polls : Nat → Except String SyncPollResp) (rem attempt d : Nat),
        d ∈ (syncPollAux polls rem attempt).2 → d = syncPollIntervalMs) ∧
    (∀ (polls : Nat → Except String SyncPollResp) (rem attempt : Nat),
        (∀ i, attempt ≤ i → i < attempt + rem →
          ∃ r, polls i = Except.ok r ∧
            (r.status == some "COMPLETED" && optTruthy r.outputUrl) = false ∧
            (r.status == some "FAILED") = false) →
        syncPollAux polls rem attempt =
          (Except.error LipSyncErr.timedOut, List.replicate rem syncPollIntervalMs)) ∧
    (∀ e : Option String,
        lipSyncWrappedMessage LipSyncErr.timedOut ≠ lipSyncWrappedMessage (LipSyncErr.jobFailed e)) :=
  ⟨rfl, rfl, fun polls rem attempt d hd => syncPollAux_delays polls rem attempt d hd,
    fun polls rem attempt h => syncPollAux_exhaust polls rem attempt h,
    lipSync_timeout_msg_ne_jobFailed⟩

/-- Witness for C3: thirty `PROCESSING` responses exhaust the budget with
thirty fixed 10000 ms sleeps and the timeout error. -/
theorem syncPoll_interval_budget_timeout_distinct_witness :
    syncPollAux pollsStuck 30 0 =
      (Except.error LipSyncErr.timedOut, List.replicate 30 syncPollIntervalMs) :=
  syncPoll_interval_budget_timeout_distinct.2.2.2.1 pollsStuck 30 0
    (fun _ _ _ => ⟨{ status := some "PROCESSING", outputUrl := none, errorMsg := none },
      rfl, rfl, rfl⟩)

/-- C8 counterexample: the request actually posted by
`generateLipSyncVideo` carries `sync_mode = "bounce"`, not the `"precise"`
mode the claim states (videoService.ts line 150). -/
theorem sync_request_mode_counterexample :
    (generateLipSyncVideo envNoJobId).posted =
      some (mkSyncRequest "https://store/v.mp4" "https://store/a.mp3") ∧
    (mkSyncRequest "https://store/v.mp4" "https://store/a.mp3").options.sync_mode = "bounce" ∧
    ("bounce" : String) ≠ "precise" :=
  ⟨rfl, rfl, by decide⟩

/-- C8 amended: the submission posts both uploaded media URLs together
with the fixed options — mp4 container, 25 fps, 854×480 resolution and
`"bounce"` sync mode — and a submission response without a truthy job id
fails the stage immediately: no poll delay happens and the outcome is the
no-job-id error whatever the poll stream would have answered. -/
theorem sync_submission_amended (env : SyncEnv) (vU aU : String) (resp : SyncSubmitResp)
    (hk : optTruthy env.apiKey = true) (hv : env.uploadVideo = Except.ok vU)
    (ha : env.uploadAudio = Except.ok aU) :
    (generateLipSyncVideo env).posted = some
      { model := "lipsync-1.9.0-beta", inputVideoUrl := vU, inputAudioUrl := aU
        options := { output_format := "mp4", sync_mode := "bounce", fps := 25
                     output_resolution := [854, 480], active_speaker := true } } ∧
    (env.submit = Except.ok resp → optTruthy resp.id = false →
      (generateLipSyncVideo env).result = Except.error (LipSyncErr.noJobId resp.raw) ∧
      (generateLipSyncVideo env).delays = [] ∧
      ∀ p, (generateLipSyncVideo { env with polls := p }).result =
        Except.error (LipSyncErr.noJobId resp.raw)) := by
  constructor
  · cases hsub : env.submit with
    | error m => simp [generateLipSyncVideo, hk, hv, ha, hsub, mkSyncRequest]
    | ok resp' =>
      cases h2 : optTruthy resp'.id <;>
        simp [generateLipSyncVideo, hk, hv, ha, hsub, h2, mkSyncRequest]
  · intro hs hid
    refine ⟨?_, ?_, fun p => ?_⟩
    · simp [generateLipSyncVideo, hk, hv, ha, hs, hid]
    · simp [generateLipSyncVideo, hk, hv, ha, hs, hid]
    · simp [generateLipSyncVideo, hk, hv, ha, hs, hid]

/-- Witness for the amended C8 at a concrete environment with a
submission response whose `id` is absent. -/
theorem sync_submission_amended_witness :
    (generateLipSyncVideo envNoJobId).posted = some
      { model := "lipsync-1.9.0-beta", inputVideoUrl := "https://store/v.mp4"
        inputAudioUrl := "https://store/a.mp3"
        options := { output_format := "mp4", sync_mode := "bounce", fps := 25
                     output_resolution := [854, 480], active_speaker := true } } ∧
    (generateLipSyncVideo envNoJobId).result = Except.error (LipSyncErr.noJobId "null") ∧
    (generateLipSyncVideo envNoJobId).delays = [] :=
  ⟨(sync_submission_amended envNoJobId "https://store/v.mp4" "https://store/a.mp3"
      { id := none, raw := "null" } rfl rfl rfl).1,
    ((sync_submission_amended envNoJobId "https://store/v.mp4" "https://store/a.mp3"
      { id := none, raw := "null" } rfl rfl rfl).2 rfl rfl).1,
    ((sync_submission_amended envNoJobId "https://store/v.mp4" "https://store/a.mp3"
      { id := none, raw := "null" } rfl rfl rfl).2 rfl rfl).2.1⟩

/-- C1: whenever `generateVideoFromText` returns a result, `usedFallback`
is `false` exactly when the lip-sync stage returned a URL (and then
`videoUrl` is that URL); when the lip-sync stage threw, the run returned
the fallback's uploaded URL with `usedFallback = true`. -/
theorem generateVideoFromText_usedFallback_iff (env : RunEnv) (r : GenResult) (fs : TempFS)
    (h : generateVideoFromText env = (Except.ok r, fs)) :
    (r.usedFallback = false ↔ ∃ u, env.lipSync = Except.ok u) ∧
    (∀ u, env.lipSync = Except.ok u → r.usedFallback = false ∧ r.videoUrl = u) ∧
    (∀ m, env.lipSync = Except.error m → r.usedFallback = true ∧
      env.fallbackUpload = Except.ok r.videoUrl) := by
  have h1 : (generateVideoCore env).1 = Except.ok r := by
    have := congrArg Prod.fst h
    simpa [generateVideoFromText] using this
  cases hsp : env.speech with
  | error m => simp [generateVideoCore, hsp] at h1
  | ok _ =>
    cases hbl : env.baseline with
    | error m => simp [generateVideoCore, hsp, hbl] at h1
    | ok _ =>
      cases hls : env.lipSync with
      | ok u =>
        simp only [generateVideoCore, hsp, hbl, hls] at h1
        cases hu : u == "" with
        | true => rw [hu] at h1; simp at h1
        | false =>
          rw [hu] at h1
          simp only [Bool.false_eq_true, if_false] at h1
          have hr : r = { videoUrl := u, usedFallback := false } := (Except.ok.inj h1).symm
          subst hr
          refine ⟨iff_of_true rfl ⟨u, rfl⟩, ?_, ?_⟩
          · intro u' hu'
            exact ⟨rfl, Except.ok.inj hu'⟩
          · intro m hm
            exact Except.noConfusion hm
      | error m =>
        cases hff : env.fallbackFfmpeg with
        | error mf =>
          simp [generateVideoCore, generateFallbackVideo, hsp, hbl, hls, hff] at h1
        | ok _ =>
          cases hfu : env.fallbackUpload with
          | error mu =>
            simp [generateVideoCore, generateFallbackVideo, hsp, hbl, hls, hff, hfu] at h1
          | ok fu =>
            simp only [generateVideoCore, generateFallbackVideo, hsp, hbl, hls, hff, hfu] at h1
            cases hu : fu == "" with
            | true => rw [hu] at h1; simp at h1
            | false =>
              rw [hu] at h1
              simp only [Bool.false_eq_true, if_false] at h1
              have hr : r = { videoUrl := fu, usedFallback := true } := (Except.ok.inj h1).symm
              subst hr
              refine ⟨iff_of_false (by simp) ?_, ?_, ?_⟩
              · rintro ⟨u', hu'⟩
                exact Except.noConfusion hu'
              · intro u' hu'
                exact Except.noConfusion hu'
              · intro m' _
                exact ⟨rfl, rfl⟩

/-- Witness for C1 at a run where every stage succeeds: the result is the
lip-sync URL with `usedFallback = false`. -/
theorem generateVideoFromText_usedFallback_iff_witness :
    (({ videoUrl := "https://cdn/main.mp4", usedFallback := false } : GenResult).usedFallback
        = false ↔ ∃ u, envAllOk.lipSync = Except.ok u) ∧
    (∀ u, envAllOk.lipSync = Except.ok u →
      ({ videoUrl := "https://cdn/main.mp4", usedFallback := false } : GenResult).usedFallback
          = false ∧
      ({ videoUrl := "https://cdn/main.mp4", usedFallback := false } : GenResult).videoUrl = u) ∧
    (∀ m, envAllOk.lipSync = Except.error m →
      ({ videoUrl := "https://cdn/main.mp4", usedFallback := false } : GenResult).usedFallback
          = true ∧
      envAllOk.fallbackUpload = Except.ok
        ({ videoUrl := "https://cdn/main.mp4", usedFallback := false } : GenResult).videoUrl) :=
  generateVideoFromText_usedFallback_iff envAllOk
    { videoUrl := "https://cdn/main.mp4", usedFallback := false }
    { audio := false, temp := false, enhanced := false } rfl

/-- C4 counterexample: in the run `envFallbackUploadFails` (lip-sync throws,
the fallback's ffmpeg succeeds, its upload throws) the run exits by
exception while the enhanced temp video file still exists, so cleanup is
not unconditional on every exit path. -/
theorem cleanup_not_unconditional_counterexample :
    (generateVideoFromText envFallbackUploadFails).2.enhanced = true ∧
    (generateVideoFromText envFallbackUploadFails).1 =
      Except.error
        "Failed to generate video from text: Failed to generate fallback video: upload down" :=
  ⟨rfl, rfl⟩

/-- C4 amended: on every exit path the synthesized audio file and the
baseline temp video are deleted (provided their deletions succeed), while
the fallback's enhanced video file survives the run exactly when the
fallback's ffmpeg ran and either its upload threw or the enhanced file's
own deletion failed. -/
theorem cleanup_amended (env : RunEnv) (hA : env.unlinkAudioFails = false)
    (hT : env.unlinkTempFails = false) :
    (generateVideoFromText env).2.audio = false ∧
    (generateVideoFromText env).2.temp = false ∧
    ((generateVideoFromText env).2.enhanced = true ↔
      (exceptOk env.speech = true ∧ exceptOk env.baseline = true ∧
       exceptOk env.lipSync = false ∧ exceptOk env.fallbackFfmpeg = true ∧
       (exceptOk env.fallbackUpload = false ∨ env.unlinkEnhancedFails = true))) := by
  obtain ⟨sp, bl, ls, ff, fu, ua, ut, ue⟩ := env
  have hA' : ua = false := hA
  have hT' : ut = false := hT
  subst hA' hT'
  cases sp <;> cases bl <;> cases ls <;> cases ff <;> cases fu <;> cases ue <;>
    simp [generateVideoFromText, generateVideoCore, generateFallbackVideo, finallyCleanup,
      exceptOk, TempFS.empty]

/-- Witness for the amended C4 at the concrete leaking run: audio and
baseline files are gone, the enhanced file remains. -/
theorem cleanup_amended_witness :
    (generateVideoFromText envFallbackUploadFails).2.audio = false ∧
    (generateVideoFromText envFallbackUploadFails).2.temp = false ∧
    ((generateVideoFromText envFallbackUploadFails).2.enhanced = true ↔
      (exceptOk envFallbackUploadFails.speech = true ∧
       exceptOk envFallbackUploadFails.baseline = true ∧
       exceptOk envFallbackUploadFails.lipSync = false ∧
       exceptOk envFallbackUploadFails.fallbackFfmpeg = true ∧
       (exceptOk envFallbackUploadFails.fallbackUpload = false ∨
        envFallbackUploadFails.unlinkEnhancedFails = true))) :=
  cleanup_amended envFallbackUploadFails rfl rfl

/-- C10: the outcome component of `generateVideoFromText` — the returned
result on the success path and the thrown error on the failure path — is
unchanged whatever the three file-deletion calls do: cleanup errors are
swallowed and never mask the run's outcome. -/
theorem cleanup_error_never_masks_result (env : RunEnv) (a b c : Bool) :
    (generateVideoFromText
      { env with unlinkAudioFails := a, unlinkTempFails := b, unlinkEnhancedFails := c }).1 =
    (generateVideoFromText env).1 := by
  obtain ⟨sp, bl, ls, ff, fu, ua, ut, ue⟩ := env
  cases sp <;> cases bl <;> cases ls <;> cases ff <;> cases fu <;>
    simp [generateVideoFromText, generateVideoCore, generateFallbackVideo, finallyCleanup]

/-- C9: `getAudioDuration` never throws: a probe that throws, or a probe
output that does not parse as a number, yields the default 30 seconds;
otherwise the parsed duration is returned. -/
theorem getAudioDuration_default_or_parsed (env : ProbeEnv) :
    (∀ m, env.probe = Except.error m → getAudioDuration env = 30) ∧
    (∀ s, env.probe = Except.ok s → jsParseFloat (jsTrim s) = none →
      getAudioDuration env = 30) ∧
    (∀ s q, env.probe = Except.ok s → jsParseFloat (jsTrim s) = some q →
      getAudioDuration env = q) := by
  refine ⟨?_, ?_, ?_⟩
  · intro m hm; simp [getAudioDuration, hm]
  · intro s hs hp; simp [getAudioDuration, hs, hp]
  · intro s q hs hp; simp [getAudioDuration, hs, hp]

/-- Witness for C9: a probe printing `12.5` followed by a newline yields
the duration 125/10, and a throwing probe yields 30. -/
theorem getAudioDuration_default_or_parsed_witness :
    getAudioDuration { probe := Except.ok "12.5\n" } = mkRat 25 2 ∧
    getAudioDuration { probe := Except.error "probe failed" } = 30 :=
  ⟨(getAudioDuration_default_or_parsed { probe := Except.ok "12.5\n" }).2.2 "12.5\n"
      (mkRat 25 2) rfl (by decide),
    (getAudioDuration_default_or_parsed { probe := Except.error "probe failed" }).1
      "probe failed" rfl⟩

/-- C7: the submitted HeyGen text is the cleaned source truncated to at
most 1000 characters, except that a cleaned text that is garbled (more
than a tenth of its words are vowel-free and longer than 7 characters) or
shorter than 20 characters is replaced wholesale by the fixed fallback
sentence; the truncated stage never exceeds 1000 characters. -/
theorem heygen_sanitize_truncate_fallback (t : String) :
    (heygenNeedsFallback (cleanHeyGenText t) = true →
      heygenSubmittedText t = heygenFallbackText) ∧
    (heygenNeedsFallback (cleanHeyGenText t) = false →
      heygenSanitizedTrunc t = String.mk ((cleanHeyGenText t).data.take 1000)) ∧
    (heygenSanitizedTrunc t).length ≤ 1000 := by
  refine ⟨?_, ?_, ?_⟩
  · intro h
    have h1 : heygenSanitizedTrunc t = heygenFallbackText := by
      simp only [heygenSanitizedTrunc, h, if_true]
      decide
    rw [heygenSubmittedText, h1]
    decide
  · intro h
    simp [heygenSanitizedTrunc, h]
  · have hlen : ∀ l : List Char, (String.mk (l.take 1000)).length ≤ 1000 := by
      intro l
      show (l.take 1000).length ≤ 1000
      simp [List.length_take]
    simp only [heygenSanitizedTrunc]
    exact hlen _

/-- Witness for C7: a two-word vowel-free input is replaced by the
fallback sentence, and a normal sentence passes through cleaned and
truncated. -/
theorem heygen_sanitize_truncate_fallback_witness :
    heygenSubmittedText "zxqwrtpsd zxqwrtpsd" = heygenFallbackText ∧
    heygenSanitizedTrunc "Markets rallied today as investors reacted to strong earnings." =
      String.mk ((cleanHeyGenText
        "Markets rallied today as investors reacted to strong earnings.").data.take 1000) :=
  ⟨(heygen_sanitize_truncate_fallback "zxqwrtpsd zxqwrtpsd").1 (by decide),
    (heygen_sanitize_truncate_fallback
      "Markets rallied today as investors reacted to strong earnings.").2.1 (by decide)⟩

/-- A loop iteration returns a URL only from a `code = 100` response whose
status is `completed`, whose `video_url` is non-empty, and whose HEAD
liveness check answered status 200. -/
theorem hgStep_success_elim (env : HGEnv) (attempt : Nat) (u : String)
    (h : hgStep env attempt = HGStepKind.success u) :
    ∃ r, env.polls attempt = Except.ok r ∧ r.code = some 100 ∧
      r.status = some "completed" ∧ r.videoUrl = some u ∧ u ≠ "" ∧
      env.heads attempt = Except.ok 200 := by
  cases hp : env.polls attempt with
  | error m => simp [hgStep, hp] at h
  | ok r =>
    simp only [hgStep, hp] at h
    by_cases hcode : (r.code == some 100) = true
    · rw [if_pos hcode] at h
      by_cases hcs : (r.status == some "completed" && optTruthy r.videoUrl) = true
      · rw [if_pos hcs] at h
        cases hh : env.heads attempt with
        | error m => simp [hh] at h
        | ok c =>
          simp only [hh] at h
          by_cases hc2 : (c == 200) = true
          · rw [if_pos hc2] at h
            rw [Bool.and_eq_true] at hcs
            obtain ⟨h1, h2⟩ := hcs
            have hst : r.status = some "completed" := by simpa using h1
            have hcd : r.code = some 100 := by simpa using hcode
            have hc200 : c = 200 := by simpa using hc2
            cases hurl : r.videoUrl with
            | none => rw [hurl] at h2; simp [optTruthy] at h2
            | some s =>
              rw [hurl] at h2
              have hs : s ≠ "" := by simpa [optTruthy] using h2
              have hu : u = s := by
                have := HGStepKind.success.inj h.symm
                rw [hurl] at this
                simpa using this
              subst hu
              refine ⟨r, rfl, hcd, hst, hurl, hs, ?_⟩
              rw [hc200]
          · rw [if_neg hc2] at h
            cases h
      · rw [if_neg hcs] at h
        by_cases hf : (r.status == some "failed") = true
        · rw [if_pos hf] at h; cases h
        · rw [if_neg hf] at h; cases h
    · rw [if_neg hcode] at h
      cases h

/-- If the HeyGen loop returns a URL, some in-budget iteration ended in
success. -/
theorem hgLoopAux_ok_elim (env : HGEnv) :
    ∀ (rem attempt : Nat) (u : String) (tr : List HGDelay),
      hgLoopAux env rem attempt = (Except.ok u, tr) →
      ∃ i, attempt ≤ i ∧ i < attempt + rem ∧ hgStep env i = HGStepKind.success u := by
  intro rem
  induction rem with
  | zero => intro attempt u tr h; simp [hgLoopAux] at h
  | succ n ih =>
    intro attempt u tr h
    cases hs : hgStep env attempt with
    | success v =>
      simp only [hgLoopAux, hs] at h
      obtain ⟨h1, _⟩ := Prod.mk.injEq .. ▸ h
      exact ⟨attempt, le_refl _, by omega, by rw [hs, Except.ok.inj h1]⟩
    | waitFixed =>
      simp only [hgLoopAux, hs, Prod.mk.injEq] at h
      obtain ⟨i, h1, h2, h3⟩ := ih (attempt + 1) u (hgLoopAux env n (attempt + 1)).2
        (Prod.ext h.1 rfl)
      exact ⟨i, by omega, by omega, h3⟩
    | waitBackoff =>
      simp only [hgLoopAux, hs, Prod.mk.injEq] at h
      obtain ⟨i, h1, h2, h3⟩ := ih (attempt + 1) u (hgLoopAux env n (attempt + 1)).2
        (Prod.ext h.1 rfl)
      exact ⟨i, by omega, by omega, h3⟩

/-- Every delay in a HeyGen loop trace is either the fixed poll wait or
the backoff wait of some in-budget attempt. -/
theorem hgLoopAux_delays (env : HGEnv) :
    ∀ (rem attempt : Nat) (d : HGDelay), d ∈ (hgLoopAux env rem attempt).2 →
      d = HGDelay.pollWait hgPollIntervalMs ∨
      ∃ i, attempt ≤ i ∧ i < attempt + rem ∧
        d = HGDelay.backoffWait (hgBackoffMs env i) := by
  intro rem
  induction rem with
  | zero => intro attempt d hd; simp [hgLoopAux] at hd
  | succ n ih =>
    intro attempt d hd
    cases hs : hgStep env attempt with
    | success v => simp [hgLoopAux, hs] at hd
    | waitFixed =>
      simp only [hgLoopAux, hs] at hd
      rcases List.mem_cons.mp hd with h | h
      · exact Or.inl h
      · rcases ih (attempt + 1) d h with h' | ⟨i, h1, h2, h3⟩
        · exact Or.inl h'
        · exact Or.inr ⟨i, by omega, by omega, h3⟩
    | waitBackoff =>
      simp only [hgLoopAux, hs] at hd
      rcases List.mem_cons.mp hd with h | h
      · exact Or.inr ⟨attempt, le_refl _, by omega, h⟩
      · rcases ih (attempt + 1) d h with h' | ⟨i, h1, h2, h3⟩
        · exact Or.inl h'
        · exact Or.inr ⟨i, by omega, by omega, h3⟩

/-- The HeyGen loop sleeps at most once per remaining attempt. -/
theorem hgLoopAux_len (env : HGEnv) :
    ∀ (rem attempt : Nat), (hgLoopAux env rem attempt).2.length ≤ rem := by
  intro rem
  induction rem with
  | zero => intro attempt; simp [hgLoopAux]
  | succ n ih =>
    intro attempt
    cases hs : hgStep env attempt with
    | success v => simp [hgLoopAux, hs]
    | waitFixed => simp only [hgLoopAux, hs]; simpa using Nat.succ_le_succ (ih (attempt + 1))
    | waitBackoff => simp only [hgLoopAux, hs]; simpa using Nat.succ_le_succ (ih (attempt + 1))

/-- The only error the HeyGen loop itself produces is the timeout. -/
theorem hgLoopAux_error (env : HGEnv) :
    ∀ (rem attempt : Nat) (e : HGErr) (tr : List HGDelay),
      hgLoopAux env rem attempt = (Except.error e, tr) → e = HGErr.timedOut := by
  intro rem
  induction rem with
  | zero =>
    intro attempt e tr h
    simp only [hgLoopAux, Prod.mk.injEq] at h
    exact (Except.error.inj h.1.symm)
  | succ n ih =>
    intro attempt e tr h
    cases hs : hgStep env attempt with
    | success v => simp [hgLoopAux, hs] at h
    | waitFixed =>
      simp only [hgLoopAux, hs, Prod.mk.injEq] at h
      exact ih (attempt + 1) e (hgLoopAux env n (attempt + 1)).2 (Prod.ext h.1 rfl)
    | waitBackoff =>
      simp only [hgLoopAux, hs, Prod.mk.injEq] at h
      exact ih (attempt + 1) e (hgLoopAux env n (attempt + 1)).2 (Prod.ext h.1 rfl)

/-- C5: `checkHeyGenVideoStatus` declares success only when a poll
answered `code = 100`, status `completed`, a non-empty `video_url`, AND the
HEAD liveness check on that URL answered 200; and a `completed` response
whose liveness check does not answer 200 leaves the loop polling — the
iteration ends in the fixed poll wait and the loop moves to the next
attempt. -/
theorem heygen_success_requires_live_url :
    (∀ (env : HGEnv) (u : String) (tr : List HGDelay),
        checkHeyGenVideoStatus env = (Except.ok u, tr) →
        ∃ i r, i < hgMaxAttempts ∧ env.polls i = Except.ok r ∧ r.code = some 100 ∧
          r.status = some "completed" ∧ r.videoUrl = some u ∧ u ≠ "" ∧
          env.heads i = Except.ok 200) ∧
    (∀ (env : HGEnv) (rem attempt : Nat) (r : HGResp),
        env.polls attempt = Except.ok r → r.code = some 100 →
        r.status = some "completed" → optTruthy r.videoUrl = true →
        (∀ c, env.heads attempt = Except.ok c → c ≠ 200) →
        hgLoopAux env (rem + 1) attempt =
          ((hgLoopAux env rem (attempt + 1)).1,
            HGDelay.pollWait hgPollIntervalMs :: (hgLoopAux env rem (attempt + 1)).2)) := by
  constructor
  · intro env u tr h
    cases hk : optTruthy env.apiKey with
    | false => simp [checkHeyGenVideoStatus, hk] at h
    | true =>
      simp only [checkHeyGenVideoStatus, hk, Bool.not_true] at h
      rw [if_neg (by simp)] at h
      simp only [Prod.mk.injEq] at h
      obtain ⟨i, hle, hlt, hstep⟩ := hgLoopAux_ok_elim env hgMaxAttempts 0 u
        (hgLoopAux env hgMaxAttempts 0).2 (Prod.ext h.1 rfl)
      obtain ⟨r, hp, hcode, hst, hurl, hne, hhead⟩ := hgStep_success_elim env i u hstep
      exact ⟨i, r, by simpa using hlt, hp, hcode, hst, hurl, hne, hhead⟩
  · intro env rem attempt r hp hcode hst hurl hhead
    have hstep : hgStep env attempt = HGStepKind.waitFixed := by
      cases hh : env.heads attempt with
      | error m => simp [hgStep, hp, hcode, hst, hurl, hh]
      | ok c =>
        have hc : (c == 200) = false := beq_eq_false_iff_ne.mpr (hhead c hh)
        simp [hgStep, hp, hcode, hst, hurl, hh, hc]
    simp [hgLoopAux, hstep]

/-- Witness for C5: with `completed` responses whose first HEAD check
throws, the loop's first iteration ends in the fixed poll wait and moves
to attempt 1. -/
theorem heygen_success_requires_live_url_witness :
    hgLoopAux hgEnvDeadUrl 30 0 =
      ((hgLoopAux hgEnvDeadUrl 29 1).1,
        HGDelay.pollWait hgPollIntervalMs :: (hgLoopAux hgEnvDeadUrl 29 1).2) :=
  heygen_success_requires_live_url.2 hgEnvDeadUrl 29 0
    { code := some 100, status := some "completed", videoUrl := some "https://hg/u.mp4",
      errorDetail := none, errorMessage := none }
    rfl rfl rfl rfl (fun _ hc => Except.noConfusion hc)

/-- C6 counterexample: with every poll answering `processing`, the delay
after attempt 1 is the fixed 30000 ms poll wait, while the claimed
backoff formula `min(interval·(attempt+1), 60000) + jitter` is at least
60000 ms there — inter-poll delays do not follow the backoff formula. -/
theorem heygen_backoff_claim_counterexample :
    (checkHeyGenVideoStatus hgEnvProcessing).2.get? 2 = some (HGDelay.pollWait 30000) ∧
    min (hgPollIntervalMs * (1 + 1)) hgBackoffCapMs = 60000 ∧ (30000 : Nat) < 60000 :=
  ⟨rfl, rfl, by decide⟩

/-- C6 amended: a fixed 30 s delay precedes the first poll; at most one
delay happens per remaining attempt; a delay is either the fixed 30 s
poll wait (the non-error path) or, only on the catch path — a throwing
status request, or the `failed`-status throw the loop's own catch
swallows — the backoff `min(30000·(attempt+1), 60000)` plus a jitter
below 5000 ms; and the only errors the function propagates are the
missing-key error and the distinct attempts-exhausted timeout. -/
theorem heygen_polling_delays_amended :
    hgMaxAttempts = 30 ∧ hgInitialDelayMs = 30000 ∧ hgPollIntervalMs = 30000 ∧
    (∀ env : HGEnv, optTruthy env.apiKey = true →
      (checkHeyGenVideoStatus env).2 =
        HGDelay.initialWait hgInitialDelayMs :: (hgLoopAux env hgMaxAttempts 0).2) ∧
    (∀ (env : HGEnv) (rem attempt : Nat) (d : HGDelay), d ∈ (hgLoopAux env rem attempt).2 →
      d = HGDelay.pollWait hgPollIntervalMs ∨
      ∃ i, attempt ≤ i ∧ i < attempt + rem ∧
        d = HGDelay.backoffWait (hgBackoffMs env i)) ∧
    (∀ (env : HGEnv) (i : Nat),
      hgBackoffMs env i =
        min (hgPollIntervalMs * (i + 1)) hgBackoffCapMs + env.rand i % hgJitterBoundMs ∧
      env.rand i % hgJitterBoundMs < hgJitterBoundMs) ∧
    (∀ (env : HGEnv) (rem attempt : Nat), (hgLoopAux env rem attempt).2.length ≤ rem) ∧
    (∀ (env : HGEnv) (e : HGErr) (tr : List HGDelay),
      checkHeyGenVideoStatus env = (Except.error e, tr) →
      e = HGErr.missingApiKey ∨ e = HGErr.timedOut) ∧
    HGErr.timedOut ≠ HGErr.missingApiKey := by
  refine ⟨rfl, rfl, rfl, ?_, hgLoopAux_delays, ?_, hgLoopAux_len, ?_, by simp⟩
  · intro env hk
    simp only [checkHeyGenVideoStatus, hk, Bool.not_true]
    rw [if_neg (by simp)]
  · intro env i
    exact ⟨rfl, Nat.mod_lt _ (by decide)⟩
  · intro env e tr h
    cases hk : optTruthy env.apiKey with
    | false =>
      simp only [checkHeyGenVideoStatus, hk, Bool.not_false] at h
      rw [if_pos trivial] at h
      simp only [Prod.mk.injEq] at h
      exact Or.inl (Except.error.inj h.1.symm)
    | true =>
      simp only [checkHeyGenVideoStatus, hk, Bool.not_true] at h
      rw [if_neg (by simp)] at h
      simp only [Prod.mk.injEq] at h
      exact Or.inr (hgLoopAux_error env hgMaxAttempts 0 e
        (hgLoopAux env hgMaxAttempts 0).2 (Prod.ext h.1 rfl))

/-- Witness for the amended C6: the all-`processing` environment starts
with the fixed initial wait, and its trace stays within the budget. -/
theorem heygen_polling_delays_amended_witness :
    (checkHeyGenVideoStatus hgEnvProcessing).2 =
      HGDelay.initialWait hgInitialDelayMs :: (hgLoopAux hgEnvProcessing hgMaxAttempts 0).2 ∧
    (hgLoopAux hgEnvProcessing 30 0).2.length ≤ 30 :=
  ⟨heygen_polling_delays_amended.2.2.2.1 hgEnvProcessing rfl,
    heygen_polling_delays_amended.2.2.2.2.2.2.1 hgEnvProcessing 30 0⟩

end AiNews
